import Mathlib

/-!
# Guard records with an originating error log (`guard_with_eid_records.cpp`)

A shallow embedding of `openpower::faultlog::GuardWithEidRecords` and of the
static callback `getGuardedTarget`, followed by the properties of the
fault-report assembly that the specification states.

Modelling conventions
* `std::string` is a Lean `String`; stream extraction works on its characters.
* A `nlohmann::json` value is a `Json`; a JSON object is the list of its
  key/value pairs, `operator[]` assignment replaces the value of an existing
  key or adds the pair.
* An `sdbusplus` call either returns its reply (`some`) or throws
  `SdBusError` (`none`).
* `DT_GET_PROP` returns `0` and fills the variable when the attribute can be
  read; the attributes of a target are therefore `Option`s.
* The helpers declared in `util.hpp`, `libguard` and `libpdbg` have no code in
  this translation unit; they are fields of `Env`.
-/

namespace openpower.faultlog

/-! ## Data model -/

/-- A guard record (`openpower::guard::GuardRecord`), reduced to the fields the
translation unit reads. `targetId` is the opaque entity path. -/
structure GuardRecord where
  recordId : Nat
  elogId : Nat
  targetId : Nat
  deriving DecidableEq, Repr

/-- The sequence `GuardRecords`. -/
abbrev GuardRecords := List GuardRecord

/-- The variant `PropertyValue` of lines 28-30. The payload of a `double` is never
read and is kept as its bit pattern. -/
inductive PropertyValue where
  | string (v : String)
  | bool (v : Bool)
  | uint8 (v : Nat)
  | int16 (v : Int)
  | uint16 (v : Nat)
  | int32 (v : Int)
  | uint32 (v : Nat)
  | int64 (v : Int)
  | uint64 (v : Nat)
  | double (bits : Nat)
  deriving DecidableEq, Repr

/-- The map `Properties` of line 32, as the list of its entries in iteration
order. A `std::map` holds each key once. -/
abbrev Properties := List (String × PropertyValue)

/-- A `nlohmann::json` value. -/
inductive Json where
  | null
  | bool (b : Bool)
  | num (n : Int)
  | str (s : String)
  | arr (elems : List Json)
  | obj (members : List (String × Json))

/-- The members of a JSON object. -/
abbrev JObject := List (String × Json)

/-- Assignment `o[key] = value` on a JSON object: the value of an existing key is
replaced, a new key is added. -/
def JObject.set : JObject → String → Json → JObject
  | [], key, value => [(key, value)]
  | (k, v) :: rest, key, value =>
    if k = key then (k, value) :: rest else (k, v) :: JObject.set rest key value

/-- Member lookup on a JSON value; `none` when the value is no object or lacks
the key. -/
def Json.member? : Json → String → Option Json
  | Json.obj members, key => (members.find? (fun kv => kv.1 = key)).map Prod.snd
  | _, _ => none

/-- Element lookup on a JSON value; `none` when the value is no array or the
index is out of range. -/
def Json.element? : Json → Nat → Option Json
  | Json.arr elems, i => elems.get? i
  | _, _ => none

/-- The exceptions that reach a `catch` clause of `populate`. Both derive from
`std::exception`; only `sdBusError` is an `sdbusplus::exception::SdBusError`. -/
inductive Exn where
  | sdBusError
  | jsonTypeError
  deriving DecidableEq, Repr

/-- The call `j.push_back(value)` of `nlohmann::json`: a null value becomes a
one-element array, an array grows at its end, any other value throws
`type_error`. -/
def Json.push_back : Json → Json → Except Exn Json
  | Json.null, value => Except.ok (Json.arr [value])
  | Json.arr elems, value => Except.ok (Json.arr (elems ++ [value]))
  | _, _ => Except.error Exn.jsonTypeError

/-- The attribute type `ATTR_HWAS_STATE_Type`, reduced to the two fields that are
read. -/
structure HwasState where
  functional : Bool
  deconfiguredByEid : Nat
  deriving DecidableEq, Repr

/-- A `pdbg_target` together with the outcome of `DT_GET_PROP` for the three
attributes the translation unit reads; `none` is a failed read. -/
structure PdbgTarget where
  index : Nat
  physDevPath : Option String
  hwasState : Option HwasState
  locationCode : Option String
  deriving DecidableEq, Repr

/-! ## Constants (lines 16-17) -/

/-- The constant `stateConfigured`. -/
abbrev stateConfigured : String := "CONFIGURED"

/-- The constant `stateDeconfigured`. -/
abbrev stateDeconfigured : String := "DECONFIGURED"

/-! ## getCount (lines 60-73) -/

/-- The function `GuardWithEidRecords::getCount`. The `int` counter only grows
by one per record and is kept as a natural number. -/
def getCount (guardRecords : GuardRecords) : Nat :=
  guardRecords.foldl (fun count elem => if elem.elogId = 0 then count else count + 1) 0

/-! ## Text helpers of the standard library -/

/-- The classification `std::isspace` of the classic locale: the space and the
control characters from horizontal tab to carriage return. -/
def isspace (c : Char) : Bool :=
  c.toNat = 32 || (9 ≤ c.toNat && c.toNat ≤ 13)

/-- The statement `iss >> refCode` on a fresh `std::istringstream` over `text`:
leading whitespace is skipped; when characters remain, `refCode` is erased and
receives the characters up to the next whitespace; when none remain the
extraction fails and `refCode` keeps its value. -/
def istreamExtract (text : String) (refCode : String) : String :=
  match text.toList.dropWhile isspace with
  | [] => refCode
  | c :: cs => String.mk ((c :: cs).takeWhile (fun ch => !isspace ch))

/-- The statements `ss << std::hex << "0x" << plid; ss.str()` of lines 173-175
for an unsigned value. -/
def hexPlid (plid : Nat) : String :=
  "0x" ++ String.mk (Nat.toDigits 16 plid)

/-- The value of one hexadecimal digit character. -/
def hexCharValue (c : Char) : Nat :=
  if 48 ≤ c.toNat ∧ c.toNat ≤ 57 then c.toNat - 48
  else if 97 ≤ c.toNat ∧ c.toNat ≤ 102 then c.toNat - 87
  else 0

/-- The number a string of hexadecimal digits denotes. -/
def hexValue (digits : List Char) : Nat :=
  digits.foldl (fun acc c => acc * 16 + hexCharValue c) 0

/-- The call `std::to_string` on an unsigned value. -/
def decimalText (n : Nat) : String := toString n

/-! ## Property loops of `populate` -/

/-- The body of the loop of lines 125-144 on one property; the state is
`(callouts, refCode)`. -/
def loggingEntryStep (st : String × String) (p : String × PropertyValue) : String × String :=
  if p.1 = "Resolution" then
    match p.2 with
    | PropertyValue.string v => (v, st.2)
    | _ => st
  else if p.1 = "EventId" then
    match p.2 with
    | PropertyValue.string v => (st.1, istreamExtract v st.2)
    | _ => st
  else st

/-- The loop of lines 125-144 over the `Logging.Entry` properties: `callouts`
and `refCode`, both empty at the start. -/
def readLoggingEntry (loggingEntryProp : Properties) : String × String :=
  loggingEntryProp.foldl loggingEntryStep ("", "")

/-- The body of the loop of lines 154-172 on one property; the state is
`(plid, timestamp)`. -/
def pelEntryStep (st : Nat × Nat) (p : String × PropertyValue) : Nat × Nat :=
  if p.1 = "PlatformLogID" then
    match p.2 with
    | PropertyValue.uint32 v => (v, st.2)
    | _ => st
  else if p.1 = "Timestamp" then
    match p.2 with
    | PropertyValue.uint64 v => (st.1, v)
    | _ => st
  else st

/-- The loop of lines 154-172 over the `PEL.Entry` properties: `plid` and
`timestamp`, both `0` at the start. -/
def readPelEntry (pelEntryProp : Properties) : Nat × Nat :=
  pelEntryProp.foldl pelEntryStep (0, 0)

/-! ## Topology search (lines 19-58) -/

/-- The structure `GuardedTarget` handed to the traversal callback. -/
structure GuardedTarget where
  target : Option PdbgTarget
  phyDevPath : String

/-- The callback `getGuardedTarget`: it returns `1` and records the target when
the physical path attribute can be read and equals the wanted path, else `0`. -/
def getGuardedTarget (target : PdbgTarget) (priv : GuardedTarget) : Int × GuardedTarget :=
  match target.physDevPath with
  | some phyPath =>
    if phyPath = priv.phyDevPath then (1, ⟨some target, priv.phyDevPath⟩)
    else (0, priv)
  | none => (0, priv)

/-- The library walk `pdbg_target_traverse` over the targets in the order it
visits them: the callback runs on each target until it returns non-zero. -/
def pdbg_target_traverse (cb : PdbgTarget → GuardedTarget → Int × GuardedTarget) :
    List PdbgTarget → GuardedTarget → Int × GuardedTarget
  | [], priv => (0, priv)
  | t :: rest, priv =>
    match cb t priv with
    | (rc, priv1) => if rc ≠ 0 then (rc, priv1) else pdbg_target_traverse cb rest priv1

/-! ## Collaborators -/

/-- A call on the D-Bus connection. -/
inductive BusCall where
  | getBMCLogIdFromPELId (pelId : Nat)
  | getAll (objPath : String) (interface : String)
  deriving DecidableEq, Repr

/-- Everything `populate` obtains from outside the translation unit.
* `getBMCLogIdFromPELId`, `getAll`: the replies of the log store, `none` when the
  call throws `SdBusError`.
* `getPhysicalPath`: `openpower::guard::getPhysicalPath`.
* `targets`: the device tree in the visiting order of `pdbg_target_traverse`.
* `pdbgTargetName`, `getGuardReason`, `parseCallout`, `epochTimeToBCD`: the
  helpers of `util.hpp`.
* `staleHwasState`: the content of the local `hwasState`, declared without an
  initialiser on line 203, that is left when `DT_GET_PROP` fails. -/
structure Env where
  getBMCLogIdFromPELId : Nat → Option Nat
  getAll : String → String → Option Properties
  getPhysicalPath : Nat → Option String
  targets : List PdbgTarget
  pdbgTargetName : PdbgTarget → String
  getGuardReason : GuardRecords → String → String
  parseCallout : String → Json
  epochTimeToBCD : Nat → String
  staleHwasState : HwasState

/-! ## populate (lines 75-256) -/

/-- The object path of line 116. -/
def entryObjPath (bmcLogId : Nat) : String :=
  "/xyz/openbmc_project/logging/entry/" ++ decimalText bmcLogId

/-- Lines 112-179, the error-log object when the identifier was translated: the
two `GetAll` calls and the four assignments. The first component lists the
calls made; an `Except.error` is the exception that leaves the block. -/
def foundErrorLog (env : Env) (bmcLogId : Nat) : List BusCall × Except Exn JObject :=
  let objPath := entryObjPath bmcLogId
  let loggingCall := BusCall.getAll objPath "xyz.openbmc_project.Logging.Entry"
  match env.getAll objPath "xyz.openbmc_project.Logging.Entry" with
  | none => ([loggingCall], Except.error Exn.sdBusError)
  | some loggingEntryProp =>
    let callouts := (readLoggingEntry loggingEntryProp).1
    let refCode := (readLoggingEntry loggingEntryProp).2
    let pelCall := BusCall.getAll objPath "org.open_power.Logging.PEL.Entry"
    match env.getAll objPath "org.open_power.Logging.PEL.Entry" with
    | none => ([loggingCall, pelCall], Except.error Exn.sdBusError)
    | some pelEntryProp =>
      let plid := (readPelEntry pelEntryProp).1
      let timestamp := (readPelEntry pelEntryProp).2
      let jsonErrorLog : JObject := []
      let jsonErrorLog := jsonErrorLog.set "PLID" (Json.str (hexPlid plid))
      let jsonErrorLog := jsonErrorLog.set "Callout Section" (env.parseCallout callouts)
      let jsonErrorLog := jsonErrorLog.set "SRC" (Json.str refCode)
      let jsonErrorLog := jsonErrorLog.set "DATE_TIME" (Json.str (env.epochTimeToBCD timestamp))
      ([loggingCall, pelCall], Except.ok jsonErrorLog)

/-- Lines 89-179: the translation call with its `catch` of `SdBusError`, then
the error-log object, which stays empty when the translation failed. -/
def errorLogSection (env : Env) (elem : GuardRecord) : List BusCall × Except Exn (Bool × JObject) :=
  let translateCall := BusCall.getBMCLogIdFromPELId elem.elogId
  match env.getBMCLogIdFromPELId elem.elogId with
  | none => ([translateCall], Except.ok (false, []))
  | some bmcLogId =>
    match foundErrorLog env bmcLogId with
    | (calls, Except.ok jsonErrorLog) => (translateCall :: calls, Except.ok (true, jsonErrorLog))
    | (calls, Except.error ex) => (translateCall :: calls, Except.error ex)

/-- Lines 182-199: the physical path of the guarded target and the first target
of the device tree that carries it; `none` is one of the two `continue`s. -/
def resolveTarget (env : Env) (elem : GuardRecord) : Option (String × PdbgTarget) :=
  match env.getPhysicalPath elem.targetId with
  | none => none
  | some physicalPath =>
    match (pdbg_target_traverse getGuardedTarget env.targets ⟨none, physicalPath⟩).2.target with
    | none => none
    | some target => some (physicalPath, target)

/-- Lines 203-204: the local `hwasState` after `DT_GET_PROP(ATTR_HWAS_STATE, ..)`. -/
def readHwasState (env : Env) (target : PdbgTarget) : HwasState :=
  match target.hwasState with
  | some hwasState => hwasState
  | none => env.staleHwasState

/-- Lines 202-211: the text stored under `CURRENT_STATE`. -/
def currentState (target : PdbgTarget) : String :=
  let state := stateDeconfigured
  match target.hwasState with
  | some hwasState => if hwasState.functional then stateConfigured else state
  | none => state

/-- Lines 200-216: the object `jsonResource`. -/
def resourceActions (env : Env) (guardRecords : GuardRecords) (physicalPath : String)
    (target : PdbgTarget) : JObject :=
  let jsonResource : JObject := []
  let jsonResource := jsonResource.set "TYPE" (Json.str (env.pdbgTargetName target))
  let jsonResource := jsonResource.set "CURRENT_STATE" (Json.str (currentState target))
  let jsonResource := jsonResource.set "REASON_DESCRIPTION"
    (Json.str (env.getGuardReason guardRecords physicalPath))
  jsonResource.set "GARD_RECORD" (Json.bool true)

/-- Lines 219-236: the assignments made to `jsonErrorLog` when the error object
was not found. -/
def deletedErrorLog (env : Env) (target : PdbgTarget) (jsonErrorLog : JObject) : JObject :=
  let jsonCallout : JObject := []
  let sectionJson : JObject := []
  let jsonCallout :=
    match target.locationCode with
    | some attrLocCode => jsonCallout.set "Location Code" (Json.str attrLocCode)
    | none => jsonCallout
  let sectionJson := sectionJson.set "Callout Count" (Json.num 1)
  let sectionJson := sectionJson.set "Callouts" (Json.obj jsonCallout)
  let jsonErrorLog := jsonErrorLog.set "PLID"
    (Json.str (decimalText (readHwasState env target).deconfiguredByEid))
  let jsonErrorLog := jsonErrorLog.set "Callout Section" (Json.obj sectionJson)
  let jsonErrorLog := jsonErrorLog.set "SRC" (Json.num 0)
  jsonErrorLog.set "DATE_TIME" (Json.str "00/00/0000 00:00:00")

/-- Lines 238-247: the wrapping of the two sections into `jsonServiceEvent`. -/
def serviceEvent (jsonErrorLog : JObject) (jsonResource : JObject) : Json :=
  let jsonErrorLogSection : List Json := []
  let jsonErrorLogSection := jsonErrorLogSection ++ [Json.obj jsonErrorLog]
  let jsonEventData : JObject := []
  let jsonEventData := jsonEventData.set "RESOURCE_ACTIONS" (Json.obj jsonResource)
  let jsonErrorLogSection := jsonErrorLogSection ++ [Json.obj jsonEventData]
  let jsonErrlogObj : JObject := []
  let jsonErrlogObj := jsonErrlogObj.set "CEC_ERROR_LOG" (Json.arr jsonErrorLogSection)
  let jsonServiceEvent : JObject := []
  Json.obj (jsonServiceEvent.set "SERVICABLE_EVENT" (Json.obj jsonErrlogObj))

/-- Lines 85-247, the body of the `try` block up to the value handed to
`jsonNag.push_back`. The first component lists the bus calls made. The second
is `Except.ok none` when a `continue` ends the iteration, `Except.ok (some e)`
when the entry `e` is built, `Except.error` when an exception leaves the
block. -/
def buildEntry (env : Env) (guardRecords : GuardRecords) (elem : GuardRecord) :
    List BusCall × Except Exn (Option Json) :=
  if elem.elogId = 0 then ([], Except.ok none)
  else
    match errorLogSection env elem with
    | (calls, Except.error ex) => (calls, Except.error ex)
    | (calls, Except.ok (dbusErrorObjFound, jsonErrorLog)) =>
      match resolveTarget env elem with
      | none => (calls, Except.ok none)
      | some (physicalPath, target) =>
        let jsonResource := resourceActions env guardRecords physicalPath target
        let jsonErrorLog :=
          if dbusErrorObjFound then jsonErrorLog else deletedErrorLog env target jsonErrorLog
        (calls, Except.ok (some (serviceEvent jsonErrorLog jsonResource)))

/-- One iteration of the loop of `populate`: the `try` block with the final
`push_back`, and the `catch` of `std::exception` that leaves `jsonNag` as it
was. -/
def populateStep (env : Env) (guardRecords : GuardRecords) (jsonNag : Json)
    (elem : GuardRecord) : Json :=
  match (buildEntry env guardRecords elem).2 with
  | Except.error _ => jsonNag
  | Except.ok none => jsonNag
  | Except.ok (some jsonServiceEvent) =>
    match jsonNag.push_back jsonServiceEvent with
    | Except.ok appended => appended
    | Except.error _ => jsonNag

/-- The function `GuardWithEidRecords::populate`: the value of `jsonNag` after
the loop over `guardRecords`. -/
def populate (env : Env) (guardRecords : GuardRecords) (jsonNag : Json) : Json :=
  guardRecords.foldl (populateStep env guardRecords) jsonNag

/-! ## Reading an entry of the report -/

/-- The first element of `CEC_ERROR_LOG` of a report entry: the error-log
object. -/
def Json.errorLog? (entry : Json) : Option Json :=
  (entry.member? "SERVICABLE_EVENT").bind (fun event =>
    (event.member? "CEC_ERROR_LOG").bind (fun log => log.element? 0))

/-- The object under `RESOURCE_ACTIONS` in the second element of
`CEC_ERROR_LOG` of a report entry. -/
def Json.resourceActions? (entry : Json) : Option Json :=
  (entry.member? "SERVICABLE_EVENT").bind (fun event =>
    (event.member? "CEC_ERROR_LOG").bind (fun log =>
      (log.element? 1).bind (fun data => data.member? "RESOURCE_ACTIONS")))

/-- A field of the error-log object of a report entry. -/
def Json.errorLogField? (entry : Json) (key : String) : Option Json :=
  entry.errorLog?.bind (fun errorLog => errorLog.member? key)

/-- A field of the resource-action object of a report entry. -/
def Json.resourceField? (entry : Json) (key : String) : Option Json :=
  entry.resourceActions?.bind (fun resource => resource.member? key)

/-! ## Concrete collaborators for the closed statements -/

/-- A core of the device tree: functional, with a location code. -/
def demoCore : PdbgTarget :=
  ⟨0, some "physical:sys-0/node-0/proc-0/eq-0/fc-0/core-0", some ⟨true, 0⟩,
    some "Ufcs-P0-C15"⟩

/-- A processor of the device tree: deconfigured by log 0x90000012, without a
location code. -/
def demoProc : PdbgTarget :=
  ⟨1, some "physical:sys-0/node-0/proc-1", some ⟨false, 2415919122⟩, none⟩

/-- A target whose functional-state attribute cannot be read. -/
def demoDimm : PdbgTarget :=
  ⟨2, some "physical:sys-0/node-0/dimm-3", none, some "Ufcs-P0-C22"⟩

/-- The device tree in visiting order; its first target has no physical path. -/
def demoTargets : List PdbgTarget :=
  [⟨9, none, none, none⟩, demoCore, demoProc, demoDimm]

/-- Collaborators over `demoTargets` with a given log store. Target identifiers
5, 6 and 7 are the core, the processor and the DIMM; 8 has a path that no
target carries; every other identifier has no physical path. -/
def demoEnv (translate : Nat → Option Nat) (getAll : String → String → Option Properties) :
    Env where
  getBMCLogIdFromPELId := translate
  getAll := getAll
  getPhysicalPath := fun targetId =>
    if targetId = 5 then some "physical:sys-0/node-0/proc-0/eq-0/fc-0/core-0"
    else if targetId = 6 then some "physical:sys-0/node-0/proc-1"
    else if targetId = 7 then some "physical:sys-0/node-0/dimm-3"
    else if targetId = 8 then some "physical:sys-0/node-0/proc-7"
    else none
  targets := demoTargets
  pdbgTargetName := fun t =>
    if t.index = 0 then "core0" else if t.index = 1 then "proc1" else "dimm3"
  getGuardReason := fun _ _ => "FATAL"
  parseCallout := fun callouts => Json.obj [("Callouts", Json.str callouts)]
  epochTimeToBCD := fun timestamp => decimalText timestamp
  staleHwasState := ⟨true, 3735928559⟩

/-- A log store that knows PEL 50 as entry 7. -/
def translateKnown (pelId : Nat) : Option Nat :=
  if pelId = 50 then some 7 else none

/-- A log store from which every PEL has been deleted. -/
def translateDeleted (_ : Nat) : Option Nat := none

/-- Property retrieval that answers for entry 7 on both interfaces. -/
def getAllKnown (objPath : String) (interface : String) : Option Properties :=
  if objPath = "/xyz/openbmc_project/logging/entry/7" then
    if interface = "xyz.openbmc_project.Logging.Entry" then
      some [("EventId", PropertyValue.string "B1234567 x"), ("Id", PropertyValue.uint32 7),
        ("Resolution", PropertyValue.string "loc1")]
    else if interface = "org.open_power.Logging.PEL.Entry" then
      some [("Hidden", PropertyValue.bool false), ("PlatformLogID", PropertyValue.uint32 4096),
        ("Timestamp", PropertyValue.uint64 1000)]
    else none
  else none

/-- Property retrieval on an entry that vanished after the translation: every
call throws. -/
def getAllVanished (_ : String) (_ : String) : Option Properties := none

/-- Property retrieval on an entry that vanished between the two `GetAll` calls:
the `Logging.Entry` call answers, the `PEL.Entry` call throws. -/
def getAllHalf (objPath : String) (interface : String) : Option Properties :=
  if interface = "xyz.openbmc_project.Logging.Entry" then getAllKnown objPath interface
  else none

/-- The end-to-end scenario of the specification for arbitrary helpers: PEL 50
is entry 7 with callouts "loc1", EventId "B1234567 x", PlatformLogID 4096 and
timestamp 1000; target identifier 5 is the functional unit named "core0". -/
def scenarioEnv (parseCallout : String → Json) (epochTimeToBCD : Nat → String)
    (getGuardReason : GuardRecords → String → String) : Env where
  getBMCLogIdFromPELId := translateKnown
  getAll := getAllKnown
  getPhysicalPath := (demoEnv translateKnown getAllKnown).getPhysicalPath
  targets := demoTargets
  pdbgTargetName := (demoEnv translateKnown getAllKnown).pdbgTargetName
  getGuardReason := getGuardReason
  parseCallout := parseCallout
  epochTimeToBCD := epochTimeToBCD
  staleHwasState := ⟨false, 0⟩

/-! ## Auxiliary definitions for the statements -/

/-- The entry one iteration of `populate` hands to `push_back`, if any. -/
def emitted (env : Env) (guardRecords : GuardRecords) (elem : GuardRecord) : Option Json :=
  match (buildEntry env guardRecords elem).2 with
  | Except.ok (some jsonServiceEvent) => some jsonServiceEvent
  | _ => none

/-- Hardware resolution succeeds: the physical-path lookup returns a path and a
target of the device tree carries it. -/
def hardwareResolves (env : Env) (elem : GuardRecord) : Bool :=
  match env.getPhysicalPath elem.targetId with
  | none => false
  | some physicalPath => env.targets.any (fun t => t.physDevPath = some physicalPath)

/-- No property retrieval of the record throws: the translation fails, or both
`GetAll` calls on the translated entry return. -/
def retrievalSucceeds (env : Env) (elem : GuardRecord) : Bool :=
  match env.getBMCLogIdFromPELId elem.elogId with
  | none => true
  | some bmcLogId =>
    (env.getAll (entryObjPath bmcLogId) "xyz.openbmc_project.Logging.Entry").isSome &&
    (env.getAll (entryObjPath bmcLogId) "org.open_power.Logging.PEL.Entry").isSome


/-! # Theorems -/

/-! ## Lemmas on the loop of `populate` -/

theorem getCount_foldl (guardRecords : GuardRecords) (n : Nat) :
    guardRecords.foldl (fun count elem => if elem.elogId = 0 then count else count + 1) n
      = n + (guardRecords.filter (fun r => decide (r.elogId ≠ 0))).length := by
  induction guardRecords generalizing n with
  | nil => simp
  | cons r rs ih =>
    by_cases h : r.elogId = 0
    · simp [List.foldl, h, ih]
    · simp [List.foldl, h, ih]; omega

theorem getCount_eq_filter (guardRecords : GuardRecords) :
    getCount guardRecords = (guardRecords.filter (fun r => decide (r.elogId ≠ 0))).length := by
  simp [getCount, getCount_foldl]

theorem traverse_eq_find (path : String) (targets : List PdbgTarget) :
    (pdbg_target_traverse getGuardedTarget targets ⟨none, path⟩).2.target
      = targets.find? (fun t => decide (t.physDevPath = some path)) := by
  induction targets with
  | nil => rfl
  | cons t ts ih =>
    cases hp : t.physDevPath with
    | none => simp [pdbg_target_traverse, getGuardedTarget, hp, ih, List.find?]
    | some q =>
      by_cases hq : q = path
      · simp [pdbg_target_traverse, getGuardedTarget, hp, hq, List.find?]
      · simp [pdbg_target_traverse, getGuardedTarget, hp, hq, ih, List.find?]

theorem resolveTarget_eq_find (env : Env) (elem : GuardRecord) :
    resolveTarget env elem =
      (env.getPhysicalPath elem.targetId).bind (fun physicalPath =>
        (env.targets.find? (fun t => decide (t.physDevPath = some physicalPath))).map
          (fun t => (physicalPath, t))) := by
  unfold resolveTarget
  cases hp : env.getPhysicalPath elem.targetId with
  | none => rfl
  | some p =>
    simp only [traverse_eq_find, Option.bind]
    cases env.targets.find? (fun t => decide (t.physDevPath = some p)) <;> rfl

theorem resolveTarget_isSome (env : Env) (elem : GuardRecord) :
    (resolveTarget env elem).isSome = hardwareResolves env elem := by
  rw [resolveTarget_eq_find]
  unfold hardwareResolves
  cases hp : env.getPhysicalPath elem.targetId with
  | none => rfl
  | some p =>
    rw [Bool.eq_iff_iff]
    simp [List.find?_isSome]

theorem foundErrorLog_snd (env : Env) (bmcLogId : Nat) :
    (foundErrorLog env bmcLogId).2 =
      match env.getAll (entryObjPath bmcLogId) "xyz.openbmc_project.Logging.Entry",
        env.getAll (entryObjPath bmcLogId) "org.open_power.Logging.PEL.Entry" with
      | some loggingEntryProp, some pelEntryProp =>
        Except.ok
          [("PLID", Json.str (hexPlid (readPelEntry pelEntryProp).1)),
           ("Callout Section", env.parseCallout (readLoggingEntry loggingEntryProp).1),
           ("SRC", Json.str (readLoggingEntry loggingEntryProp).2),
           ("DATE_TIME", Json.str (env.epochTimeToBCD (readPelEntry pelEntryProp).2))]
      | _, _ => Except.error Exn.sdBusError := by
  unfold foundErrorLog
  dsimp only
  cases env.getAll (entryObjPath bmcLogId) "xyz.openbmc_project.Logging.Entry" with
  | none => rfl
  | some lp =>
    cases env.getAll (entryObjPath bmcLogId) "org.open_power.Logging.PEL.Entry" with
    | none => rfl
    | some pp => rfl

theorem emitted_eq (env : Env) (guardRecords : GuardRecords) (elem : GuardRecord) :
    emitted env guardRecords elem =
      if elem.elogId = 0 then none
      else
        match resolveTarget env elem with
        | none => none
        | some (physicalPath, target) =>
          match env.getBMCLogIdFromPELId elem.elogId with
          | none =>
            some (serviceEvent (deletedErrorLog env target [])
              (resourceActions env guardRecords physicalPath target))
          | some bmcLogId =>
            match (foundErrorLog env bmcLogId).2 with
            | Except.ok jsonErrorLog =>
              some (serviceEvent jsonErrorLog
                (resourceActions env guardRecords physicalPath target))
            | Except.error _ => none := by
  unfold emitted buildEntry errorLogSection
  by_cases h0 : elem.elogId = 0
  · simp [h0]
  · simp only [h0, if_false]
    cases env.getBMCLogIdFromPELId elem.elogId with
    | none =>
      cases resolveTarget env elem with
      | none => rfl
      | some pt => rfl
    | some id =>
      rcases hf : foundErrorLog env id with ⟨calls, res⟩
      cases res with
      | error ex =>
        cases resolveTarget env elem with
        | none => simp [hf]
        | some pt => simp [hf]
      | ok o =>
        cases resolveTarget env elem with
        | none => simp [hf]
        | some pt => simp [hf]

theorem emitted_isSome (env : Env) (guardRecords : GuardRecords) (elem : GuardRecord) :
    (emitted env guardRecords elem).isSome =
      (decide (elem.elogId ≠ 0) && hardwareResolves env elem && retrievalSucceeds env elem) := by
  rw [emitted_eq, ← resolveTarget_isSome]
  unfold retrievalSucceeds
  by_cases h0 : elem.elogId = 0
  · simp [h0]
  · simp only [h0, if_false]
    cases resolveTarget env elem with
    | none => simp
    | some pt =>
      cases env.getBMCLogIdFromPELId elem.elogId with
      | none => simp [h0]
      | some id =>
        simp only [foundErrorLog_snd]
        cases env.getAll (entryObjPath id) "xyz.openbmc_project.Logging.Entry" with
        | none => simp
        | some lp =>
          cases env.getAll (entryObjPath id) "org.open_power.Logging.PEL.Entry" with
          | none => simp
          | some pp => simp [h0]

theorem populateStep_arr (env : Env) (guardRecords : GuardRecords) (elems : List Json)
    (elem : GuardRecord) :
    populateStep env guardRecords (Json.arr elems) elem =
      Json.arr (elems ++ (emitted env guardRecords elem).toList) := by
  unfold populateStep emitted
  rcases (buildEntry env guardRecords elem).2 with ex | r
  · simp
  · cases r with
    | none => simp
    | some e => simp [Json.push_back]

theorem foldl_populateStep_arr (env : Env) (guardRecords : GuardRecords)
    (records : List GuardRecord) (elems : List Json) :
    records.foldl (populateStep env guardRecords) (Json.arr elems) =
      Json.arr (elems ++ records.filterMap (emitted env guardRecords)) := by
  induction records generalizing elems with
  | nil => simp
  | cons r rs ih =>
    rw [List.foldl_cons, populateStep_arr, ih]
    cases h : emitted env guardRecords r <;> simp [List.filterMap_cons, h]

theorem populate_arr (env : Env) (guardRecords : GuardRecords) (elems : List Json) :
    populate env guardRecords (Json.arr elems) =
      Json.arr (elems ++ guardRecords.filterMap (emitted env guardRecords)) :=
  foldl_populateStep_arr env guardRecords guardRecords elems

theorem filterMap_emitted_length (env : Env) (ctx : GuardRecords) (records : List GuardRecord)
    (h : ∀ r ∈ records, (emitted env ctx r).isSome = decide (r.elogId ≠ 0)) :
    (records.filterMap (emitted env ctx)).length =
      (records.filter (fun r => decide (r.elogId ≠ 0))).length := by
  induction records with
  | nil => rfl
  | cons r rs ih =>
    have hr := h r (List.mem_cons_self r rs)
    have ih1 := ih (fun x hx => h x (List.mem_cons_of_mem r hx))
    by_cases h0 : r.elogId = 0
    · have he : emitted env ctx r = none := by
        cases he : emitted env ctx r with
        | none => rfl
        | some e => rw [he] at hr; simp [h0] at hr
      simp only [List.filterMap_cons, he, List.filter_cons]
      simpa [h0] using ih1
    · obtain ⟨e, he⟩ : ∃ e, emitted env ctx r = some e := by
        cases he : emitted env ctx r with
        | none => rw [he] at hr; simp [h0] at hr
        | some e => exact ⟨e, rfl⟩
      simp only [List.filterMap_cons, he, List.filter_cons]
      simpa [h0] using ih1

theorem filterMap_emitted_length_le (env : Env) (ctx : GuardRecords)
    (records : List GuardRecord) :
    (records.filterMap (emitted env ctx)).length ≤
      (records.filter (fun r => decide (r.elogId ≠ 0))).length := by
  induction records with
  | nil => simp
  | cons r rs ih =>
    by_cases h0 : r.elogId = 0
    · have he : emitted env ctx r = none := by simp [emitted_eq, h0]
      simp only [List.filterMap_cons, he, List.filter_cons]
      simpa [h0] using ih
    · cases he : emitted env ctx r with
      | none =>
        simp only [List.filterMap_cons, he, List.filter_cons]
        simp only [ne_eq, h0, not_false_eq_true, decide_True, if_true, List.length_cons]
        exact Nat.le_succ_of_le ih
      | some e =>
        simp only [List.filterMap_cons, he, List.filter_cons]
        simp only [ne_eq, h0, not_false_eq_true, decide_True, if_true, List.length_cons]
        exact Nat.succ_le_succ ih

theorem filterMap_eq_filter_map (f : GuardRecord → Option Json) (records : List GuardRecord) :
    records.filterMap f =
      (records.filter (fun r => (f r).isSome)).map (fun r => (f r).getD Json.null) := by
  induction records with
  | nil => rfl
  | cons r rs ih =>
    cases h : f r <;> simp [List.filterMap_cons, List.filter_cons, h, ih]

theorem emitted_eq_some_iff (env : Env) (ctx : GuardRecords) (r : GuardRecord) (e : Json) :
    emitted env ctx r = some e ↔ (buildEntry env ctx r).2 = Except.ok (some e) := by
  unfold emitted
  cases hb : (buildEntry env ctx r).2 with
  | error ex => simp
  | ok res =>
    cases res with
    | none => simp
    | some e1 => simp

theorem populateStep_of_emitted_none (env : Env) (ctx : GuardRecords) (r : GuardRecord)
    (jsonNag : Json) (h : emitted env ctx r = none) : populateStep env ctx jsonNag r = jsonNag := by
  unfold emitted at h
  unfold populateStep
  cases hb : (buildEntry env ctx r).2 with
  | error ex => rfl
  | ok res =>
    cases res with
    | none => rfl
    | some e1 => rw [hb] at h; simp at h

/-! ## Stream extraction -/

theorem dropWhile_head_false (p : Char → Bool) (l : List Char) (c : Char) (cs : List Char)
    (h : l.dropWhile p = c :: cs) : p c = false := by
  induction l with
  | nil => simp at h
  | cons a as ih =>
    by_cases ha : p a = true
    · rw [List.dropWhile_cons_of_pos ha] at h
      exact ih h
    · rw [List.dropWhile_cons_of_neg ha] at h
      have hac : a = c := (List.cons.inj h).1
      rw [← hac]
      simpa using ha

theorem istreamExtract_decompose (text : String) :
    ∃ ws tok rest : List Char,
      text.toList = ws ++ tok ++ rest ∧
      (∀ c ∈ ws, isspace c = true) ∧
      (∀ c ∈ tok, isspace c = false) ∧
      (rest = [] ∨ ∃ c tail, rest = c :: tail ∧ isspace c = true) ∧
      (tok = [] → rest = []) ∧
      istreamExtract text "" = String.mk tok := by
  have hsplit : text.toList =
      text.toList.takeWhile isspace ++ text.toList.dropWhile isspace :=
    (List.takeWhile_append_dropWhile isspace text.toList).symm
  have hws : ∀ c ∈ text.toList.takeWhile isspace, isspace c = true :=
    fun c hc => List.mem_takeWhile_imp hc
  unfold istreamExtract
  cases hl : text.toList.dropWhile isspace with
  | nil =>
    refine ⟨text.toList.takeWhile isspace, [], [], ?_, hws, ?_, Or.inl rfl, fun _ => rfl, rfl⟩
    · rw [hl] at hsplit; simpa using hsplit
    · intro c hc; simp at hc
  | cons c cs =>
    refine ⟨text.toList.takeWhile isspace, (c :: cs).takeWhile (fun ch => !isspace ch),
      (c :: cs).dropWhile (fun ch => !isspace ch), ?_, hws, ?_, ?_, ?_, rfl⟩
    · rw [List.append_assoc, List.takeWhile_append_dropWhile, ← hl]
      exact hsplit
    · intro d hd
      have := List.mem_takeWhile_imp hd
      simpa using this
    · cases hr : (c :: cs).dropWhile (fun ch => !isspace ch) with
      | nil => exact Or.inl rfl
      | cons d ds =>
        refine Or.inr ⟨d, ds, rfl, ?_⟩
        have := dropWhile_head_false (fun ch => !isspace ch) (c :: cs) d ds hr
        simpa using this
    · intro htok
      have hc : isspace c = false := dropWhile_head_false isspace text.toList c cs hl
      simp [List.takeWhile_cons, hc] at htok

theorem foldl_loggingEntryStep_absent (props : Properties) (st : String × String)
    (h : ∀ v, ("EventId", PropertyValue.string v) ∉ props) :
    (props.foldl loggingEntryStep st).2 = st.2 := by
  induction props generalizing st with
  | nil => rfl
  | cons p ps ih =>
    rw [List.foldl_cons, ih _ (fun v hv => h v (List.mem_cons_of_mem p hv))]
    obtain ⟨k, val⟩ := p
    unfold loggingEntryStep
    by_cases hk1 : k = "Resolution"
    · cases val <;> simp [hk1]
    · by_cases hk2 : k = "EventId"
      · cases val with
        | string v => exact absurd (by simp [hk2]) (h v)
        | _ => simp [hk1, hk2]
      · simp [hk1, hk2]

theorem foldl_loggingEntryStep_present (props : Properties) (st : String × String) (v : String)
    (hnd : (props.map Prod.fst).Nodup) (hmem : ("EventId", PropertyValue.string v) ∈ props) :
    (props.foldl loggingEntryStep st).2 = istreamExtract v st.2 := by
  induction props generalizing st with
  | nil => simp at hmem
  | cons p ps ih =>
    rw [List.map_cons, List.nodup_cons] at hnd
    rw [List.foldl_cons]
    rcases List.mem_cons.1 hmem with hp | hp
    · subst hp
      rw [foldl_loggingEntryStep_absent]
      · simp [loggingEntryStep]
      · intro w hw
        exact hnd.1 (List.mem_map.2 ⟨_, hw, rfl⟩)
    · rw [ih _ hnd.2 hp]
      have hk : p.1 ≠ "EventId" := by
        intro hk
        exact hnd.1 (List.mem_map.2 ⟨_, hp, hk.symm⟩)
      obtain ⟨k, val⟩ := p
      unfold loggingEntryStep
      by_cases hk1 : k = "Resolution"
      · cases val <;> simp [hk1]
      · have hk2 : ¬ k = "EventId" := hk
        simp [hk1, hk2]

theorem foldl_pelEntryStep_present (props : Properties) (st : Nat × Nat) (plid : Nat)
    (hnd : (props.map Prod.fst).Nodup)
    (hmem : ("PlatformLogID", PropertyValue.uint32 plid) ∈ props) :
    (props.foldl pelEntryStep st).1 = plid := by
  induction props generalizing st with
  | nil => simp at hmem
  | cons p ps ih =>
    rw [List.map_cons, List.nodup_cons] at hnd
    rw [List.foldl_cons]
    rcases List.mem_cons.1 hmem with hp | hp
    · subst hp
      have hkeep : ∀ (qs : Properties) (s : Nat × Nat), "PlatformLogID" ∉ qs.map Prod.fst →
          (qs.foldl pelEntryStep s).1 = s.1 := by
        intro qs
        induction qs with
        | nil => intro s _; rfl
        | cons q qs ihq =>
          intro s hq
          rw [List.map_cons, List.mem_cons, not_or] at hq
          rw [List.foldl_cons, ihq _ hq.2]
          obtain ⟨k, val⟩ := q
          have hk : ¬ k = "PlatformLogID" := fun hk => hq.1 hk.symm
          unfold pelEntryStep
          by_cases hk2 : k = "Timestamp"
          · cases val <;> simp [hk, hk2]
          · simp [hk, hk2]
      rw [hkeep ps _ hnd.1]
      simp [pelEntryStep]
    · exact ih _ hnd.2 hp

/-! ## Hexadecimal rendering -/

/-- The sixteen characters `std::hex` prints. -/
theorem digitChar_hex (d : Nat) (h : d < 16) :
    Nat.digitChar d ∈ "0123456789abcdef".toList ∧ hexCharValue (Nat.digitChar d) = d ∧
      (d ≠ 0 → Nat.digitChar d ≠ '0') := by
  interval_cases d <;> decide

theorem toDigitsCore_hex (fuel n : Nat) (ds : List Char) (h : n < fuel) :
    ∃ c cs, Nat.toDigitsCore 16 fuel n ds = c :: cs ++ ds ∧
      (∀ x ∈ c :: cs, x ∈ "0123456789abcdef".toList) ∧
      (n ≠ 0 → c ≠ '0') ∧ (n = 0 → c :: cs = ['0']) ∧
      (c :: cs).foldl (fun acc x => acc * 16 + hexCharValue x) 0 = n := by
  induction fuel generalizing n ds with
  | zero => omega
  | succ fuel ih =>
    have hd := digitChar_hex (n % 16) (Nat.mod_lt n (by decide))
    unfold Nat.toDigitsCore
    by_cases hq : n / 16 = 0
    · have hlt : n < 16 := by omega
      have hmod : n % 16 = n := Nat.mod_eq_of_lt hlt
      refine ⟨Nat.digitChar (n % 16), [], by simp [hq], ?_, ?_, ?_, ?_⟩
      · intro x hx
        rw [List.mem_singleton] at hx
        rw [hx]; exact hd.1
      · intro hn
        exact hd.2.2 (by omega)
      · intro hn
        subst hn
        rfl
      · have hv := hd.2.1
        rw [hmod] at hv
        simp [hmod, hv]
    · have hlt : n / 16 < fuel := by omega
      obtain ⟨c, cs, heq, hall, hlead, _, hval⟩ := ih (n / 16) (Nat.digitChar (n % 16) :: ds) hlt
      refine ⟨c, cs ++ [Nat.digitChar (n % 16)], ?_, ?_, ?_, ?_, ?_⟩
      · simp [hq, heq]
      · intro x hx
        rw [← List.cons_append, List.mem_append, List.mem_singleton] at hx
        rcases hx with hx | hx
        · exact hall x hx
        · rw [hx]; exact hd.1
      · intro _
        exact hlead hq
      · intro hn
        omega
      · rw [← List.cons_append, List.foldl_append, hval]
        simp only [List.foldl_cons, List.foldl_nil, hd.2.1]
        omega

theorem toDigits_hex (n : Nat) :
    ∃ c cs, Nat.toDigits 16 n = c :: cs ∧
      (∀ x ∈ c :: cs, x ∈ "0123456789abcdef".toList) ∧
      (n ≠ 0 → c ≠ '0') ∧ (n = 0 → c :: cs = ['0']) ∧
      hexValue (c :: cs) = n := by
  obtain ⟨c, cs, heq, h⟩ := toDigitsCore_hex (n + 1) n [] (Nat.lt_succ_self n)
  exact ⟨c, cs, by simpa [Nat.toDigits] using heq, h⟩

/-! ## The shape of an entry -/

theorem serviceEvent_eq (jsonErrorLog jsonResource : JObject) :
    serviceEvent jsonErrorLog jsonResource =
      Json.obj [("SERVICABLE_EVENT", Json.obj [("CEC_ERROR_LOG",
        Json.arr [Json.obj jsonErrorLog,
          Json.obj [("RESOURCE_ACTIONS", Json.obj jsonResource)]])])] := rfl

theorem resourceActions_eq (env : Env) (guardRecords : GuardRecords) (physicalPath : String)
    (target : PdbgTarget) :
    resourceActions env guardRecords physicalPath target =
      [("TYPE", Json.str (env.pdbgTargetName target)),
       ("CURRENT_STATE", Json.str (currentState target)),
       ("REASON_DESCRIPTION", Json.str (env.getGuardReason guardRecords physicalPath)),
       ("GARD_RECORD", Json.bool true)] := rfl

theorem deletedErrorLog_eq (env : Env) (target : PdbgTarget) :
    deletedErrorLog env target [] =
      [("PLID", Json.str (decimalText (readHwasState env target).deconfiguredByEid)),
       ("Callout Section", Json.obj [("Callout Count", Json.num 1),
          ("Callouts", Json.obj (match target.locationCode with
            | some attrLocCode => [("Location Code", Json.str attrLocCode)]
            | none => []))]),
       ("SRC", Json.num 0),
       ("DATE_TIME", Json.str "00/00/0000 00:00:00")] := by
  unfold deletedErrorLog
  cases target.locationCode <;> rfl

theorem emitted_some_cases (env : Env) (guardRecords : GuardRecords) (elem : GuardRecord)
    (e : Json) (h : emitted env guardRecords elem = some e) :
    elem.elogId ≠ 0 ∧ ∃ physicalPath target jsonErrorLog,
      resolveTarget env elem = some (physicalPath, target) ∧
      e = serviceEvent jsonErrorLog (resourceActions env guardRecords physicalPath target) ∧
      ((env.getBMCLogIdFromPELId elem.elogId = none ∧
          jsonErrorLog = deletedErrorLog env target []) ∨
        ∃ bmcLogId, env.getBMCLogIdFromPELId elem.elogId = some bmcLogId ∧
          (foundErrorLog env bmcLogId).2 = Except.ok jsonErrorLog) := by
  rw [emitted_eq] at h
  by_cases h0 : elem.elogId = 0
  · simp [h0] at h
  · refine ⟨h0, ?_⟩
    simp only [h0, if_false] at h
    cases hr : resolveTarget env elem with
    | none => rw [hr] at h; simp at h
    | some pt =>
      obtain ⟨p, t⟩ := pt
      rw [hr] at h
      cases ht : env.getBMCLogIdFromPELId elem.elogId with
      | none =>
        rw [ht] at h
        simp only [Option.some.injEq] at h
        exact ⟨p, t, _, rfl, h.symm, Or.inl ⟨rfl, rfl⟩⟩
      | some id =>
        rw [ht] at h
        dsimp only at h
        cases hf : (foundErrorLog env id).2 with
        | error ex => rw [hf] at h; simp at h
        | ok o =>
          rw [hf] at h
          simp only [Option.some.injEq] at h
          exact ⟨p, t, o, rfl, h.symm, Or.inr ⟨id, rfl, hf⟩⟩

theorem resolveTarget_some_iff (env : Env) (elem : GuardRecord) (physicalPath : String)
    (target : PdbgTarget) :
    resolveTarget env elem = some (physicalPath, target) ↔
      env.getPhysicalPath elem.targetId = some physicalPath ∧
      env.targets.find? (fun t => decide (t.physDevPath = some physicalPath)) = some target := by
  rw [resolveTarget_eq_find]
  cases hp : env.getPhysicalPath elem.targetId with
  | none => simp
  | some p =>
    cases hf : env.targets.find? (fun t => decide (t.physDevPath = some p)) with
    | none =>
      simp only [Option.bind, hf, Option.map]
      constructor
      · intro h; simp at h
      · rintro ⟨h1, h2⟩
        rw [Option.some.injEq] at h1
        subst h1
        rw [hf] at h2
        simp at h2
    | some t =>
      simp only [Option.bind, hf, Option.map, Option.some.injEq, Prod.mk.injEq]
      constructor
      · rintro ⟨h1, h2⟩
        subst h1
        exact ⟨rfl, by rw [hf, h2]⟩
      · rintro ⟨h1, h2⟩
        subst h1
        rw [hf] at h2
        exact ⟨rfl, Option.some.inj h2⟩

theorem currentState_values (target : PdbgTarget) :
    (target.hwasState = none → currentState target = "DECONFIGURED") ∧
    (∀ hwasState, target.hwasState = some hwasState →
      (currentState target = "CONFIGURED" ↔ hwasState.functional = true) ∧
      (hwasState.functional = false → currentState target = "DECONFIGURED")) ∧
    (currentState target = "CONFIGURED" ∨ currentState target = "DECONFIGURED") := by
  have hne : stateDeconfigured ≠ stateConfigured := by decide
  unfold currentState
  cases hs : target.hwasState with
  | none => simp
  | some st =>
    cases hf : st.functional with
    | true => simp [hf]
    | false =>
      refine ⟨by simp, ?_, by simp [hf]⟩
      intro st2 h2
      rw [Option.some.injEq] at h2
      subst h2
      simp [hf, hne]

/-! ## Lemmas on the error-log object and on other report values -/

theorem foundErrorLog_ok_shape (env : Env) (bmcLogId : Nat) (jsonErrorLog : JObject)
    (h : (foundErrorLog env bmcLogId).2 = Except.ok jsonErrorLog) :
    ∃ loggingEntryProp pelEntryProp,
      env.getAll (entryObjPath bmcLogId) "xyz.openbmc_project.Logging.Entry" =
        some loggingEntryProp ∧
      env.getAll (entryObjPath bmcLogId) "org.open_power.Logging.PEL.Entry" =
        some pelEntryProp ∧
      jsonErrorLog =
        [("PLID", Json.str (hexPlid (readPelEntry pelEntryProp).1)),
         ("Callout Section", env.parseCallout (readLoggingEntry loggingEntryProp).1),
         ("SRC", Json.str (readLoggingEntry loggingEntryProp).2),
         ("DATE_TIME", Json.str (env.epochTimeToBCD (readPelEntry pelEntryProp).2))] := by
  rw [foundErrorLog_snd] at h
  cases hl : env.getAll (entryObjPath bmcLogId) "xyz.openbmc_project.Logging.Entry" with
  | none => rw [hl] at h; simp at h
  | some lp =>
    cases hp : env.getAll (entryObjPath bmcLogId) "org.open_power.Logging.PEL.Entry" with
    | none => rw [hl, hp] at h; simp at h
    | some pp =>
      rw [hl, hp] at h
      simp only [Except.ok.injEq] at h
      exact ⟨lp, pp, rfl, rfl, h.symm⟩

theorem foundErrorLog_of_replies (env : Env) (bmcLogId : Nat)
    (loggingEntryProp pelEntryProp : Properties)
    (hlog : env.getAll (entryObjPath bmcLogId) "xyz.openbmc_project.Logging.Entry" =
      some loggingEntryProp)
    (hpel : env.getAll (entryObjPath bmcLogId) "org.open_power.Logging.PEL.Entry" =
      some pelEntryProp) :
    (foundErrorLog env bmcLogId).2 = Except.ok
      [("PLID", Json.str (hexPlid (readPelEntry pelEntryProp).1)),
       ("Callout Section", env.parseCallout (readLoggingEntry loggingEntryProp).1),
       ("SRC", Json.str (readLoggingEntry loggingEntryProp).2),
       ("DATE_TIME", Json.str (env.epochTimeToBCD (readPelEntry pelEntryProp).2))] := by
  rw [foundErrorLog_snd, hlog, hpel]

theorem buildEntry_of_replies (env : Env) (guardRecords : GuardRecords) (elem : GuardRecord)
    (bmcLogId : Nat) (loggingEntryProp pelEntryProp : Properties)
    (h0 : elem.elogId ≠ 0)
    (htr : env.getBMCLogIdFromPELId elem.elogId = some bmcLogId)
    (hlog : env.getAll (entryObjPath bmcLogId) "xyz.openbmc_project.Logging.Entry" =
      some loggingEntryProp)
    (hpel : env.getAll (entryObjPath bmcLogId) "org.open_power.Logging.PEL.Entry" =
      some pelEntryProp)
    (hhw : hardwareResolves env elem = true) :
    ∃ physicalPath target,
      resolveTarget env elem = some (physicalPath, target) ∧
      (buildEntry env guardRecords elem).2 = Except.ok (some (serviceEvent
        [("PLID", Json.str (hexPlid (readPelEntry pelEntryProp).1)),
         ("Callout Section", env.parseCallout (readLoggingEntry loggingEntryProp).1),
         ("SRC", Json.str (readLoggingEntry loggingEntryProp).2),
         ("DATE_TIME", Json.str (env.epochTimeToBCD (readPelEntry pelEntryProp).2))]
        (resourceActions env guardRecords physicalPath target))) := by
  rw [← resolveTarget_isSome] at hhw
  obtain ⟨⟨p, t⟩, hr⟩ := Option.isSome_iff_exists.1 hhw
  refine ⟨p, t, hr, (emitted_eq_some_iff _ _ _ _).1 ?_⟩
  rw [emitted_eq]
  simp only [h0, if_false, hr, htr,
    foundErrorLog_of_replies env bmcLogId loggingEntryProp pelEntryProp hlog hpel]

theorem foldl_populateStep_null (env : Env) (guardRecords : GuardRecords)
    (records : List GuardRecord) :
    records.foldl (populateStep env guardRecords) Json.null =
      match records.filterMap (emitted env guardRecords) with
      | [] => Json.null
      | e :: es => Json.arr (e :: es) := by
  induction records with
  | nil => rfl
  | cons r rs ih =>
    rw [List.foldl_cons]
    cases he : emitted env guardRecords r with
    | none =>
      rw [populateStep_of_emitted_none env guardRecords r Json.null he, ih]
      simp [List.filterMap_cons, he]
    | some e =>
      have hstep : populateStep env guardRecords Json.null r = Json.arr [e] := by
        have hb := (emitted_eq_some_iff env guardRecords r e).1 he
        simp [populateStep, hb, Json.push_back]
      rw [hstep, foldl_populateStep_arr]
      simp [List.filterMap_cons, he]

theorem foldl_populateStep_other (env : Env) (guardRecords : GuardRecords)
    (records : List GuardRecord) (jsonNag : Json)
    (hthrow : ∀ e, jsonNag.push_back e = Except.error Exn.jsonTypeError) :
    records.foldl (populateStep env guardRecords) jsonNag = jsonNag := by
  induction records with
  | nil => rfl
  | cons r rs ih =>
    rw [List.foldl_cons]
    have hstep : populateStep env guardRecords jsonNag r = jsonNag := by
      unfold populateStep
      cases hb : (buildEntry env guardRecords r).2 with
      | error ex => rfl
      | ok res =>
        cases res with
        | none => rfl
        | some e => simp [hthrow e]
    rw [hstep, ih]

/-! # The claims -/

/-! ## The guard record counter -/

/-- C1: `getCount` returns the number of records whose `elogId` is not 0; a
record with `elogId == 0` adds nothing to the count of the sequence it stands
in, whatever its `recordId` and `targetId`; the empty sequence gives 0. -/
theorem getCount_counts_nonmanual (guardRecords : GuardRecords) :
    getCount guardRecords = (guardRecords.filter (fun r => decide (r.elogId ≠ 0))).length ∧
    (∀ (before after : GuardRecords) (recordId targetId : Nat),
      getCount (before ++ GuardRecord.mk recordId 0 targetId :: after) =
        getCount (before ++ after)) ∧
    getCount [] = 0 := by
  refine ⟨getCount_eq_filter guardRecords, ?_, rfl⟩
  intro before after recordId targetId
  simp [getCount_eq_filter, List.filter_cons]

/-! ## Count and report -/

/-- C2, as stated, fails: both records resolve in the device tree, the log store
translates PEL 50 and then throws on `GetAll`, and `populate` appends one entry
while `getCount` is 2. -/
theorem populate_count_mismatch_when_getAll_throws :
    (∀ r ∈ [GuardRecord.mk 1 50 5, GuardRecord.mk 2 51 6],
      hardwareResolves (demoEnv translateKnown getAllVanished) r = true) ∧
    ¬ ∃ entries, populate (demoEnv translateKnown getAllVanished)
        [GuardRecord.mk 1 50 5, GuardRecord.mk 2 51 6] (Json.arr []) =
          Json.arr ([] ++ entries) ∧
      entries.length = getCount [GuardRecord.mk 1 50 5, GuardRecord.mk 2 51 6] := by
  refine ⟨by decide, ?_⟩
  rintro ⟨entries, hpop, hlen⟩
  have hone : ∃ e, populate (demoEnv translateKnown getAllVanished)
      [GuardRecord.mk 1 50 5, GuardRecord.mk 2 51 6] (Json.arr []) = Json.arr [e] := ⟨_, rfl⟩
  obtain ⟨e, he⟩ := hone
  rw [he, List.nil_append] at hpop
  have hentries : [e] = entries := Json.arr.inj hpop
  have hcount : getCount [GuardRecord.mk 1 50 5, GuardRecord.mk 2 51 6] = 2 := by decide
  rw [← hentries, hcount] at hlen
  simp at hlen

/-- C2, amended: when every record's hardware resolution succeeds and no
property retrieval made for a record throws, the number of entries `populate`
appends equals `getCount` of the sequence. -/
theorem populate_length_eq_getCount (env : Env) (guardRecords : GuardRecords)
    (report : List Json)
    (hhw : ∀ r ∈ guardRecords, hardwareResolves env r = true)
    (hlog : ∀ r ∈ guardRecords, r.elogId ≠ 0 → retrievalSucceeds env r = true) :
    ∃ entries, populate env guardRecords (Json.arr report) = Json.arr (report ++ entries) ∧
      entries.length = getCount guardRecords := by
  refine ⟨guardRecords.filterMap (emitted env guardRecords), populate_arr _ _ _, ?_⟩
  rw [getCount_eq_filter]
  apply filterMap_emitted_length
  intro r hr
  rw [emitted_isSome, hhw r hr]
  by_cases h0 : r.elogId = 0
  · simp [h0]
  · simp [h0, hlog r hr h0]

/-- C2, amended, at a concrete input: a manual guard, a record whose PEL is
deleted and a record whose PEL is retrieved give two entries. -/
theorem populate_length_eq_getCount_witness :
    ∃ entries, populate (demoEnv translateKnown getAllKnown)
        [GuardRecord.mk 1 0 5, GuardRecord.mk 2 51 6, GuardRecord.mk 3 50 5] (Json.arr []) =
          Json.arr ([] ++ entries) ∧
      entries.length =
        getCount [GuardRecord.mk 1 0 5, GuardRecord.mk 2 51 6, GuardRecord.mk 3 50 5] :=
  populate_length_eq_getCount (demoEnv translateKnown getAllKnown)
    [GuardRecord.mk 1 0 5, GuardRecord.mk 2 51 6, GuardRecord.mk 3 50 5] []
    (by decide) (by decide)

/-- C3, as stated, fails: the record has `elogId != 0` and resolves in the device
tree, yet the `PEL.Entry` retrieval throws and the report stays empty. -/
theorem populate_drops_resolved_record :
    ¬ ∃ entryOf : GuardRecord → Json,
      populate (demoEnv translateKnown getAllHalf) [GuardRecord.mk 4 50 6] (Json.arr []) =
        Json.arr ([] ++ ([GuardRecord.mk 4 50 6].filter (fun r =>
          decide (r.elogId ≠ 0) &&
            hardwareResolves (demoEnv translateKnown getAllHalf) r)).map entryOf) := by
  rintro ⟨entryOf, h⟩
  have hp : populate (demoEnv translateKnown getAllHalf) [GuardRecord.mk 4 50 6] (Json.arr [])
      = Json.arr [] := rfl
  have hf : [GuardRecord.mk 4 50 6].filter (fun r =>
      decide (r.elogId ≠ 0) && hardwareResolves (demoEnv translateKnown getAllHalf) r)
      = [GuardRecord.mk 4 50 6] := by decide
  rw [hp, hf] at h
  simp at h

/-- C3, amended: the entries `populate` appends are, in input order, the entries
of exactly those records that have `elogId != 0`, whose hardware resolution
succeeds and whose property retrievals do not throw; a record with
`elogId == 0`, one without a physical path and one whose path no target carries
leave the report as it is, and the loop goes on with the records after it. -/
theorem populate_entries_in_input_order (env : Env) (guardRecords : GuardRecords)
    (report : List Json) :
    ∃ entryOf : GuardRecord → Json,
      populate env guardRecords (Json.arr report) =
        Json.arr (report ++ (guardRecords.filter (fun r =>
          decide (r.elogId ≠ 0) && hardwareResolves env r && retrievalSucceeds env r)).map
            entryOf) ∧
      (∀ r, (decide (r.elogId ≠ 0) && hardwareResolves env r && retrievalSucceeds env r) = true →
        (buildEntry env guardRecords r).2 = Except.ok (some (entryOf r))) ∧
      (∀ (r : GuardRecord) (jsonNag : Json),
        (r.elogId = 0 ∨ env.getPhysicalPath r.targetId = none ∨
          ∃ physicalPath, env.getPhysicalPath r.targetId = some physicalPath ∧
            ∀ t ∈ env.targets, t.physDevPath ≠ some physicalPath) →
        populateStep env guardRecords jsonNag r = jsonNag) := by
  refine ⟨fun r => (emitted env guardRecords r).getD Json.null, ?_, ?_, ?_⟩
  · rw [populate_arr, filterMap_eq_filter_map]
    simp only [emitted_isSome]
  · intro r hr
    rw [← emitted_isSome env guardRecords r] at hr
    cases he : emitted env guardRecords r with
    | none => rw [he] at hr; simp at hr
    | some e =>
      show (buildEntry env guardRecords r).2 =
        Except.ok (some ((emitted env guardRecords r).getD Json.null))
      rw [he]
      exact (emitted_eq_some_iff env guardRecords r e).1 he
  · intro r jsonNag hskip
    have hnone : emitted env guardRecords r = none := by
      have hs : (emitted env guardRecords r).isSome = false := by
        rw [emitted_isSome]
        rcases hskip with h0 | hp | ⟨p, hp, hall⟩
        · simp [h0]
        · simp [hardwareResolves, hp]
        · have : hardwareResolves env r = false := by
            simp only [hardwareResolves, hp]
            simpa using hall
          simp [this]
      cases he : emitted env guardRecords r with
      | none => rfl
      | some e => rw [he] at hs; simp at hs
    exact populateStep_of_emitted_none env guardRecords r jsonNag hnone

/-! ## Bounds that hold for every collaborator behaviour -/

/-- C10: whatever the collaborators answer or throw, `populate` keeps the
entries already in the report in place and appends at most `getCount` entries;
one iteration appends nothing or one entry, and nothing for a record with
`elogId == 0`. A null report stays null or becomes an array of at most
`getCount` entries, and a value on which `push_back` throws is left as it is. -/
theorem populate_only_appends_at_most_getCount (env : Env) (guardRecords : GuardRecords)
    (report : List Json) :
    (∃ entries, populate env guardRecords (Json.arr report) = Json.arr (report ++ entries) ∧
      entries.length ≤ getCount guardRecords) ∧
    (∀ (elems : List Json) (elem : GuardRecord),
      populateStep env guardRecords (Json.arr elems) elem = Json.arr elems ∨
        ∃ e, populateStep env guardRecords (Json.arr elems) elem = Json.arr (elems ++ [e])) ∧
    (∀ (jsonNag : Json) (elem : GuardRecord), elem.elogId = 0 →
      populateStep env guardRecords jsonNag elem = jsonNag) ∧
    (populate env guardRecords Json.null = Json.null ∨
      ∃ entries, populate env guardRecords Json.null = Json.arr entries ∧
        entries.length ≤ getCount guardRecords) ∧
    (∀ jsonNag : Json, (∀ e, jsonNag.push_back e = Except.error Exn.jsonTypeError) →
      populate env guardRecords jsonNag = jsonNag) := by
  refine ⟨⟨guardRecords.filterMap (emitted env guardRecords), populate_arr _ _ _, ?_⟩, ?_, ?_,
    ?_, ?_⟩
  rotate_left 3
  · have hnull := foldl_populateStep_null env guardRecords guardRecords
    have hle := filterMap_emitted_length_le env guardRecords guardRecords
    rw [← getCount_eq_filter] at hle
    cases hes : guardRecords.filterMap (emitted env guardRecords) with
    | nil =>
      rw [hes] at hnull
      exact Or.inl hnull
    | cons e es =>
      rw [hes] at hnull hle
      exact Or.inr ⟨e :: es, hnull, hle⟩
  · intro jsonNag hthrow
    exact foldl_populateStep_other env guardRecords guardRecords jsonNag hthrow
  · rw [getCount_eq_filter]
    exact filterMap_emitted_length_le env guardRecords guardRecords
  · intro elems elem
    rw [populateStep_arr]
    cases emitted env guardRecords elem with
    | none => left; simp
    | some e => right; exact ⟨e, by simp⟩
  · intro jsonNag elem h0
    simp [populateStep, buildEntry, h0]

/-! ## Missing error logs -/

/-- C4, as stated, fails: the record has `elogId != 0` and resolves in the device
tree, the translation answers, the `GetAll` call on `Logging.Entry` throws, and
no entry is appended for the record. -/
theorem populate_drops_record_when_entry_vanished :
    (GuardRecord.mk 1 50 5).elogId ≠ 0 ∧
    hardwareResolves (demoEnv translateKnown getAllVanished) (GuardRecord.mk 1 50 5) = true ∧
    translateKnown 50 = some 7 ∧
    getAllVanished (entryObjPath 7) "xyz.openbmc_project.Logging.Entry" = none ∧
    ¬ ∃ e, populate (demoEnv translateKnown getAllVanished) [GuardRecord.mk 1 50 5]
      (Json.arr []) = Json.arr ([] ++ [e]) := by
  refine ⟨by decide, by decide, by decide, rfl, ?_⟩
  rintro ⟨e, he⟩
  have hnil : populate (demoEnv translateKnown getAllVanished) [GuardRecord.mk 1 50 5]
      (Json.arr []) = Json.arr [] := rfl
  rw [hnil] at he
  have := Json.arr.inj he
  simp at this

/-- C4, amended: for a record with `elogId != 0` whose hardware target resolves,
`populate` appends an entry with the fallback content when the identifier
translation fails, and appends an entry when the translation and both property
retrievals succeed; when the translation succeeds and a `GetAll` call throws,
the exception reaches the per-record `catch` and the record is dropped. -/
theorem populate_missing_log_outcomes (env : Env) (guardRecords : GuardRecords)
    (report : List Json) (elem : GuardRecord)
    (h0 : elem.elogId ≠ 0) (hhw : hardwareResolves env elem = true) :
    (env.getBMCLogIdFromPELId elem.elogId = none →
      ∃ e, populateStep env guardRecords (Json.arr report) elem = Json.arr (report ++ [e]) ∧
        e.errorLogField? "SRC" = some (Json.num 0) ∧
        e.errorLogField? "DATE_TIME" = some (Json.str "00/00/0000 00:00:00")) ∧
    (∀ bmcLogId loggingEntryProp pelEntryProp,
      env.getBMCLogIdFromPELId elem.elogId = some bmcLogId →
      env.getAll (entryObjPath bmcLogId) "xyz.openbmc_project.Logging.Entry" =
        some loggingEntryProp →
      env.getAll (entryObjPath bmcLogId) "org.open_power.Logging.PEL.Entry" =
        some pelEntryProp →
      ∃ e, populateStep env guardRecords (Json.arr report) elem = Json.arr (report ++ [e])) ∧
    (∀ bmcLogId, env.getBMCLogIdFromPELId elem.elogId = some bmcLogId →
      (env.getAll (entryObjPath bmcLogId) "xyz.openbmc_project.Logging.Entry" = none ∨
        env.getAll (entryObjPath bmcLogId) "org.open_power.Logging.PEL.Entry" = none) →
      populateStep env guardRecords (Json.arr report) elem = Json.arr report) := by
  rw [← resolveTarget_isSome] at hhw
  obtain ⟨⟨p, t⟩, hr⟩ := Option.isSome_iff_exists.1 hhw
  refine ⟨?_, ?_, ?_⟩
  · intro ht
    refine ⟨serviceEvent (deletedErrorLog env t []) (resourceActions env guardRecords p t),
      ?_, ?_, ?_⟩
    · rw [populateStep_arr, emitted_eq]
      simp [h0, hr, ht]
    · rw [deletedErrorLog_eq]; rfl
    · rw [deletedErrorLog_eq]; rfl
  · intro id lp pp ht hl hp
    rw [populateStep_arr, emitted_eq]
    simp only [h0, if_false, hr, ht, foundErrorLog_of_replies env id lp pp hl hp]
    exact ⟨_, rfl⟩
  · intro id ht hfail
    rw [populateStep_arr, emitted_eq]
    have hf : (foundErrorLog env id).2 = Except.error Exn.sdBusError := by
      rw [foundErrorLog_snd]
      rcases hfail with hl | hp
      · rw [hl]
      · rw [hp]
        cases env.getAll (entryObjPath id) "xyz.openbmc_project.Logging.Entry" <;> rfl
    simp [h0, hr, ht, hf]

/-- C4, amended, at a concrete input: the processor guarded by the deleted PEL 51
is reported with the fallback content. -/
theorem populate_missing_log_outcomes_witness :
    ∃ e, populateStep (demoEnv translateDeleted getAllVanished) [GuardRecord.mk 2 51 6]
        (Json.arr []) (GuardRecord.mk 2 51 6) = Json.arr ([] ++ [e]) ∧
      e.errorLogField? "SRC" = some (Json.num 0) ∧
      e.errorLogField? "DATE_TIME" = some (Json.str "00/00/0000 00:00:00") :=
  (populate_missing_log_outcomes (demoEnv translateDeleted getAllVanished)
    [GuardRecord.mk 2 51 6] [] (GuardRecord.mk 2 51 6) (by decide) (by decide)).1 rfl

/-! ## Fallback content -/

/-- The fallback entry when the functional-state attribute can be read: the
translation call is the only bus call, and the error-log object holds the
decimal `deconfiguredByEid` of the attribute, the synthesized single callout
with the location code when it can be read, `SRC` 0 and the placeholder date. -/
theorem fallback_entry_of_readable_state (env : Env) (guardRecords : GuardRecords)
    (elem : GuardRecord) (physicalPath : String) (target : PdbgTarget) (hwasState : HwasState)
    (h0 : elem.elogId ≠ 0)
    (htr : env.getBMCLogIdFromPELId elem.elogId = none)
    (hres : resolveTarget env elem = some (physicalPath, target))
    (hst : target.hwasState = some hwasState) :
    buildEntry env guardRecords elem =
      ([BusCall.getBMCLogIdFromPELId elem.elogId],
        Except.ok (some (serviceEvent
          [("PLID", Json.str (decimalText hwasState.deconfiguredByEid)),
           ("Callout Section", Json.obj [("Callout Count", Json.num 1),
              ("Callouts", Json.obj (match target.locationCode with
                | some attrLocCode => [("Location Code", Json.str attrLocCode)]
                | none => []))]),
           ("SRC", Json.num 0),
           ("DATE_TIME", Json.str "00/00/0000 00:00:00")]
          (resourceActions env guardRecords physicalPath target)))) := by
  have hread : readHwasState env target = hwasState := by simp [readHwasState, hst]
  unfold buildEntry errorLogSection
  simp only [h0, if_false, htr, hres]
  rw [if_neg (by simp), deletedErrorLog_eq, hread]

/-- The fallback entry at a concrete input: the processor deconfigured by log
2415919122, without a location code. -/
theorem fallback_entry_of_readable_state_witness :
    buildEntry (demoEnv translateDeleted getAllVanished) [GuardRecord.mk 2 51 6]
        (GuardRecord.mk 2 51 6) =
      ([BusCall.getBMCLogIdFromPELId 51],
        Except.ok (some (serviceEvent
          [("PLID", Json.str "2415919122"),
           ("Callout Section", Json.obj [("Callout Count", Json.num 1),
              ("Callouts", Json.obj [])]),
           ("SRC", Json.num 0),
           ("DATE_TIME", Json.str "00/00/0000 00:00:00")]
          (resourceActions (demoEnv translateDeleted getAllVanished) [GuardRecord.mk 2 51 6]
            "physical:sys-0/node-0/proc-1" demoProc)))) :=
  fallback_entry_of_readable_state (demoEnv translateDeleted getAllVanished)
    [GuardRecord.mk 2 51 6] (GuardRecord.mk 2 51 6) "physical:sys-0/node-0/proc-1" demoProc
    ⟨false, 2415919122⟩ (by decide) rfl rfl rfl

/-- C5 at the failing input: the translation of PEL 60 fails, the record resolves
to a target whose functional-state attribute cannot be read, and the `PLID` of
the emitted entry is the decimal text of what the unset local `hwasState`
holds, here 3735928559. -/
theorem fallback_plid_reads_unset_hwasState :
    translateDeleted 60 = none ∧
    resolveTarget (demoEnv translateDeleted getAllVanished) (GuardRecord.mk 7 60 7) =
      some ("physical:sys-0/node-0/dimm-3", demoDimm) ∧
    demoDimm.hwasState = none ∧
    (demoEnv translateDeleted getAllVanished).staleHwasState.deconfiguredByEid = 3735928559 ∧
    ∃ e, populate (demoEnv translateDeleted getAllVanished) [GuardRecord.mk 7 60 7]
        (Json.arr []) = Json.arr [e] ∧
      e.errorLogField? "PLID" = some (Json.str "3735928559") := by
  refine ⟨rfl, rfl, rfl, rfl, _, rfl, rfl⟩

/-! ## Current state -/

/-- C6: in every emitted entry `CURRENT_STATE` is "DECONFIGURED" when the
functional-state attribute of the matched target cannot be read, and when it
can be read it is "CONFIGURED" exactly when the functional flag is true and
"DECONFIGURED" otherwise; no other text occurs, and any other log store and
helpers give the same text for the same hardware. -/
theorem currentState_reflects_functional_flag (env : Env) (guardRecords : GuardRecords)
    (elem : GuardRecord) (e : Json)
    (h : (buildEntry env guardRecords elem).2 = Except.ok (some e)) :
    ∃ physicalPath target state,
      env.getPhysicalPath elem.targetId = some physicalPath ∧
      env.targets.find? (fun t => decide (t.physDevPath = some physicalPath)) = some target ∧
      e.resourceField? "CURRENT_STATE" = some (Json.str state) ∧
      (target.hwasState = none → state = "DECONFIGURED") ∧
      (∀ hwasState, target.hwasState = some hwasState →
        (state = "CONFIGURED" ↔ hwasState.functional = true) ∧
        (hwasState.functional = false → state = "DECONFIGURED")) ∧
      (state = "CONFIGURED" ∨ state = "DECONFIGURED") ∧
      (∀ (env2 : Env) (guardRecords2 : GuardRecords) (e2 : Json),
        env2.getPhysicalPath = env.getPhysicalPath → env2.targets = env.targets →
        (buildEntry env2 guardRecords2 elem).2 = Except.ok (some e2) →
        e2.resourceField? "CURRENT_STATE" = some (Json.str state)) := by
  obtain ⟨_, p, t, o, hr, he, _⟩ :=
    emitted_some_cases env guardRecords elem e ((emitted_eq_some_iff _ _ _ _).2 h)
  have hpt := (resolveTarget_some_iff env elem p t).1 hr
  obtain ⟨hnone, hsome, hvals⟩ := currentState_values t
  refine ⟨p, t, currentState t, hpt.1, hpt.2, ?_, hnone, hsome, hvals, ?_⟩
  · rw [he]; rfl
  · intro env2 recs2 e2 hp2 ht2 h2
    obtain ⟨_, p2, t2, o2, hr2, he2, _⟩ :=
      emitted_some_cases env2 recs2 elem e2 ((emitted_eq_some_iff _ _ _ _).2 h2)
    have hpt2 := (resolveTarget_some_iff env2 elem p2 t2).1 hr2
    rw [hp2, ht2] at hpt2
    have hpp : p2 = p := Option.some.inj (hpt2.1.symm.trans hpt.1)
    subst hpp
    have htt : t2 = t := Option.some.inj (hpt2.2.symm.trans hpt.2)
    subst htt
    rw [he2]; rfl

/-- C6 at a concrete input: the DIMM whose functional-state attribute cannot be
read is reported as "DECONFIGURED". -/
theorem currentState_reflects_functional_flag_witness :
    ∃ physicalPath target state,
      (demoEnv translateDeleted getAllVanished).getPhysicalPath 7 = some physicalPath ∧
      (demoEnv translateDeleted getAllVanished).targets.find?
        (fun t => decide (t.physDevPath = some physicalPath)) = some target ∧
      (serviceEvent (deletedErrorLog (demoEnv translateDeleted getAllVanished) demoDimm [])
        (resourceActions (demoEnv translateDeleted getAllVanished) [GuardRecord.mk 7 60 7]
          "physical:sys-0/node-0/dimm-3" demoDimm)).resourceField? "CURRENT_STATE" =
        some (Json.str state) ∧
      (target.hwasState = none → state = "DECONFIGURED") :=
  let ⟨p, t, s, h1, h2, h3, h4, _⟩ :=
    currentState_reflects_functional_flag (demoEnv translateDeleted getAllVanished)
      [GuardRecord.mk 7 60 7] (GuardRecord.mk 7 60 7)
      (serviceEvent (deletedErrorLog (demoEnv translateDeleted getAllVanished) demoDimm [])
        (resourceActions (demoEnv translateDeleted getAllVanished) [GuardRecord.mk 7 60 7]
          "physical:sys-0/node-0/dimm-3" demoDimm))
      rfl
  ⟨p, t, s, h1, h2, h3, h4⟩

/-! ## Reference code and platform log identifier -/

/-- C7: on the success path `SRC` is the first whitespace-delimited token of the
text value of `EventId`: the value splits into leading whitespace, the token
without whitespace, and a rest that is empty or starts with whitespace (and is
empty when there is no token), and `SRC` is the token; "ABCD1234 extra text"
gives "ABCD1234"; an empty or all-whitespace value, and an absent or non-text
`EventId`, give the empty string. -/
theorem src_is_first_token_of_eventId (env : Env) (bmcLogId : Nat)
    (loggingEntryProp pelEntryProp : Properties)
    (hlog : env.getAll (entryObjPath bmcLogId) "xyz.openbmc_project.Logging.Entry" =
      some loggingEntryProp)
    (hpel : env.getAll (entryObjPath bmcLogId) "org.open_power.Logging.PEL.Entry" =
      some pelEntryProp)
    (hmap : (loggingEntryProp.map Prod.fst).Nodup) :
    ∃ jsonErrorLog src,
      (foundErrorLog env bmcLogId).2 = Except.ok jsonErrorLog ∧
      (Json.obj jsonErrorLog).member? "SRC" = some (Json.str src) ∧
      (∀ v, ("EventId", PropertyValue.string v) ∈ loggingEntryProp →
        ∃ ws tok rest : List Char,
          v.toList = ws ++ tok ++ rest ∧
          (∀ c ∈ ws, isspace c = true) ∧
          (∀ c ∈ tok, isspace c = false) ∧
          (rest = [] ∨ ∃ c tail, rest = c :: tail ∧ isspace c = true) ∧
          (tok = [] → rest = []) ∧
          src = String.mk tok) ∧
      (("EventId", PropertyValue.string "ABCD1234 extra text") ∈ loggingEntryProp →
        src = "ABCD1234") ∧
      (∀ v, ("EventId", PropertyValue.string v) ∈ loggingEntryProp →
        (∀ c ∈ v.toList, isspace c = true) → src = "") ∧
      ((∀ v, ("EventId", PropertyValue.string v) ∉ loggingEntryProp) → src = "") ∧
      (∀ (guardRecords : GuardRecords) (elem : GuardRecord), elem.elogId ≠ 0 →
        env.getBMCLogIdFromPELId elem.elogId = some bmcLogId →
        hardwareResolves env elem = true →
        ∃ e, (buildEntry env guardRecords elem).2 = Except.ok (some e) ∧
          e.errorLogField? "SRC" = some (Json.str src)) := by
  refine ⟨_, (readLoggingEntry loggingEntryProp).2,
    foundErrorLog_of_replies env bmcLogId loggingEntryProp pelEntryProp hlog hpel, rfl,
    ?_, ?_, ?_, ?_, ?_⟩
  rotate_left 4
  · intro guardRecords elem h0 htr hhw
    obtain ⟨p, t, _, hb⟩ := buildEntry_of_replies env guardRecords elem bmcLogId
      loggingEntryProp pelEntryProp h0 htr hlog hpel hhw
    exact ⟨_, hb, rfl⟩
  · intro v hv
    obtain ⟨ws, tok, rest, h1, h2, h3, h4, h5, h6⟩ := istreamExtract_decompose v
    refine ⟨ws, tok, rest, h1, h2, h3, h4, h5, ?_⟩
    rw [← h6]
    exact foldl_loggingEntryStep_present loggingEntryProp ("", "") v hmap hv
  · intro hv
    have := foldl_loggingEntryStep_present loggingEntryProp ("", "") _ hmap hv
    rw [readLoggingEntry, this]
    decide
  · intro v hv hall
    have := foldl_loggingEntryStep_present loggingEntryProp ("", "") _ hmap hv
    rw [readLoggingEntry, this]
    unfold istreamExtract
    have hd : v.toList.dropWhile isspace = [] := by
      rw [List.dropWhile_eq_nil_iff]
      exact hall
    rw [hd]
  · intro habs
    exact foldl_loggingEntryStep_absent loggingEntryProp ("", "") habs

/-- C7 at a concrete input: entry 7 of the known log store has EventId
"B1234567 x" and gives `SRC` "B1234567". -/
theorem src_is_first_token_of_eventId_witness :
    ∃ jsonErrorLog src,
      (foundErrorLog (demoEnv translateKnown getAllKnown) 7).2 = Except.ok jsonErrorLog ∧
      (Json.obj jsonErrorLog).member? "SRC" = some (Json.str src) ∧
      ∃ ws tok rest : List Char,
        "B1234567 x".toList = ws ++ tok ++ rest ∧
        (∀ c ∈ tok, isspace c = false) ∧
        (tok = [] → rest = []) ∧
        src = String.mk tok := by
  obtain ⟨o, src, h1, h2, h3, _⟩ :=
    src_is_first_token_of_eventId (demoEnv translateKnown getAllKnown) 7
      [("EventId", PropertyValue.string "B1234567 x"), ("Id", PropertyValue.uint32 7),
        ("Resolution", PropertyValue.string "loc1")]
      [("Hidden", PropertyValue.bool false), ("PlatformLogID", PropertyValue.uint32 4096),
        ("Timestamp", PropertyValue.uint64 1000)]
      rfl rfl (by decide)
  obtain ⟨ws, tok, rest, g1, _, g3, _, g5, g6⟩ := h3 "B1234567 x" (by simp)
  exact ⟨o, src, h1, h2, ws, tok, rest, g1, g3, g5, g6⟩

/-- C8: on the success path, for a `PlatformLogID` property holding the unsigned
value `p`, the `PLID` field is "0x" followed by digits among 0-9 and a-f, with
no leading zero unless `p` is 0 (then the single digit 0), whose base-16 value
is `p`; 0, 291 and 4096 render as "0x0", "0x123" and "0x1000". -/
theorem plid_is_lowercase_hex (env : Env) (bmcLogId : Nat)
    (loggingEntryProp pelEntryProp : Properties) (p : Nat)
    (hlog : env.getAll (entryObjPath bmcLogId) "xyz.openbmc_project.Logging.Entry" =
      some loggingEntryProp)
    (hpel : env.getAll (entryObjPath bmcLogId) "org.open_power.Logging.PEL.Entry" =
      some pelEntryProp)
    (hmap : (pelEntryProp.map Prod.fst).Nodup)
    (hplid : ("PlatformLogID", PropertyValue.uint32 p) ∈ pelEntryProp) :
    ∃ jsonErrorLog c cs,
      (foundErrorLog env bmcLogId).2 = Except.ok jsonErrorLog ∧
      (Json.obj jsonErrorLog).member? "PLID" = some (Json.str (hexPlid p)) ∧
      hexPlid p = String.mk ('0' :: 'x' :: c :: cs) ∧
      (∀ d ∈ c :: cs, d ∈ "0123456789abcdef".toList) ∧
      (p ≠ 0 → c ≠ '0') ∧
      (p = 0 → c :: cs = ['0']) ∧
      hexValue (c :: cs) = p ∧
      hexPlid 0 = "0x0" ∧ hexPlid 291 = "0x123" ∧ hexPlid 4096 = "0x1000" ∧
      (∀ (guardRecords : GuardRecords) (elem : GuardRecord), elem.elogId ≠ 0 →
        env.getBMCLogIdFromPELId elem.elogId = some bmcLogId →
        hardwareResolves env elem = true →
        ∃ e, (buildEntry env guardRecords elem).2 = Except.ok (some e) ∧
          e.errorLogField? "PLID" = some (Json.str (hexPlid p))) := by
  obtain ⟨c, cs, hd, hall, hlead, hzero, hval⟩ := toDigits_hex p
  have hp : (readPelEntry pelEntryProp).1 = p :=
    foldl_pelEntryStep_present pelEntryProp (0, 0) p hmap hplid
  refine ⟨_, c, cs,
    foundErrorLog_of_replies env bmcLogId loggingEntryProp pelEntryProp hlog hpel, ?_, ?_,
    hall, hlead, hzero, hval, by decide, by decide, by decide, ?_⟩
  · rw [hp]; rfl
  · unfold hexPlid
    rw [hd]; rfl
  · intro guardRecords elem h0 htr hhw
    obtain ⟨pth, t, _, hb⟩ := buildEntry_of_replies env guardRecords elem bmcLogId
      loggingEntryProp pelEntryProp h0 htr hlog hpel hhw
    refine ⟨_, hb, ?_⟩
    rw [hp]; rfl

/-- C8 at a concrete input: entry 7 of the known log store has PlatformLogID 4096
and gives `PLID` "0x1000". -/
theorem plid_is_lowercase_hex_witness :
    ∃ jsonErrorLog c cs,
      (foundErrorLog (demoEnv translateKnown getAllKnown) 7).2 = Except.ok jsonErrorLog ∧
      (Json.obj jsonErrorLog).member? "PLID" = some (Json.str (hexPlid 4096)) ∧
      hexPlid 4096 = String.mk ('0' :: 'x' :: c :: cs) ∧
      hexValue (c :: cs) = 4096 := by
  obtain ⟨o, c, cs, h1, h2, h3, _, _, _, h4, _⟩ :=
    plid_is_lowercase_hex (demoEnv translateKnown getAllKnown) 7
      [("EventId", PropertyValue.string "B1234567 x"), ("Id", PropertyValue.uint32 7),
        ("Resolution", PropertyValue.string "loc1")]
      [("Hidden", PropertyValue.bool false), ("PlatformLogID", PropertyValue.uint32 4096),
        ("Timestamp", PropertyValue.uint64 1000)]
      4096 rfl rfl (by decide) (by decide)
  exact ⟨o, c, cs, h1, h2, h3, h4⟩

/-! ## Shape of the report -/

/-- C9: every entry `populate` appends is
`{"SERVICABLE_EVENT": {"CEC_ERROR_LOG": [E, {"RESOURCE_ACTIONS": R}]}}` where `E`
has the keys `PLID`, `Callout Section`, `SRC` and `DATE_TIME`, and `R` has
`TYPE` = the name of the matched target, `CURRENT_STATE`, `REASON_DESCRIPTION` =
the guard reason for the whole input sequence and the physical path of the
record, and `GARD_RECORD` = true. In the end-to-end scenario the report is the
single entry with `TYPE` "core0", `CURRENT_STATE` "CONFIGURED", `PLID` "0x1000",
`SRC` "B1234567", the parsed callouts of "loc1" and the formatted time of 1000. -/
theorem populate_entry_shape :
    (∀ (env : Env) (guardRecords : GuardRecords) (report : List Json),
      ∃ entries, populate env guardRecords (Json.arr report) = Json.arr (report ++ entries) ∧
        ∀ e ∈ entries, ∃ elem ∈ guardRecords, ∃ physicalPath target plid callouts src dateTime state,
          env.getPhysicalPath elem.targetId = some physicalPath ∧
          env.targets.find? (fun t => decide (t.physDevPath = some physicalPath)) = some target ∧
          (state = "CONFIGURED" ∨ state = "DECONFIGURED") ∧
          e = Json.obj [("SERVICABLE_EVENT", Json.obj [("CEC_ERROR_LOG", Json.arr [
            Json.obj [("PLID", plid), ("Callout Section", callouts), ("SRC", src),
              ("DATE_TIME", dateTime)],
            Json.obj [("RESOURCE_ACTIONS", Json.obj [
              ("TYPE", Json.str (env.pdbgTargetName target)),
              ("CURRENT_STATE", Json.str state),
              ("REASON_DESCRIPTION", Json.str (env.getGuardReason guardRecords physicalPath)),
              ("GARD_RECORD", Json.bool true)])]])])]) ∧
    (∀ (parseCallout : String → Json) (epochTimeToBCD : Nat → String)
        (getGuardReason : GuardRecords → String → String),
      populate (scenarioEnv parseCallout epochTimeToBCD getGuardReason) [GuardRecord.mk 1 50 5]
          (Json.arr []) =
        Json.arr [Json.obj [("SERVICABLE_EVENT", Json.obj [("CEC_ERROR_LOG", Json.arr [
          Json.obj [("PLID", Json.str "0x1000"), ("Callout Section", parseCallout "loc1"),
            ("SRC", Json.str "B1234567"), ("DATE_TIME", Json.str (epochTimeToBCD 1000))],
          Json.obj [("RESOURCE_ACTIONS", Json.obj [
            ("TYPE", Json.str "core0"),
            ("CURRENT_STATE", Json.str "CONFIGURED"),
            ("REASON_DESCRIPTION", Json.str (getGuardReason [GuardRecord.mk 1 50 5]
              "physical:sys-0/node-0/proc-0/eq-0/fc-0/core-0")),
            ("GARD_RECORD", Json.bool true)])]])])]]) := by
  constructor
  · intro env guardRecords report
    refine ⟨guardRecords.filterMap (emitted env guardRecords), populate_arr _ _ _, ?_⟩
    intro e he
    obtain ⟨elem, hmem, hem⟩ := List.mem_filterMap.1 he
    obtain ⟨_, p, t, o, hr, heq, hcase⟩ := emitted_some_cases env guardRecords elem e hem
    have hpt := (resolveTarget_some_iff env elem p t).1 hr
    rcases hcase with ⟨_, ho⟩ | ⟨id, _, hf⟩
    · rw [deletedErrorLog_eq] at ho
      exact ⟨elem, hmem, p, t, _, _, _, _, currentState t, hpt.1, hpt.2,
        (currentState_values t).2.2, by rw [heq, ho]; rfl⟩
    · obtain ⟨lp, pp, _, _, ho⟩ := foundErrorLog_ok_shape env id o hf
      exact ⟨elem, hmem, p, t, _, _, _, _, currentState t, hpt.1, hpt.2,
        (currentState_values t).2.2, by rw [heq, ho]; rfl⟩
  · intro parseCallout epochTimeToBCD getGuardReason
    rfl

end openpower.faultlog
